import Mathlib

/-!
# TinyPlayer: the bounded blocking queue, the session clock and the workers

A shallow embedding of `app/src/main/cpp/include/queue.hpp` and of the control
operations and worker loops of `app/src/main/cpp/player.cpp`.

## Queue

`Queue<T>` guards four fields with one mutex: the deque `deq`, the capacity
`m_cap` and the flags `is_close` and `is_pause`.  Every member function runs its
body holding that mutex, and `std::condition_variable::wait` releases it only
while the caller sleeps, so the effect of each operation on the fields is one
atomic step.  A blocking operation is embedded as the function that is run each
time its loop condition is evaluated with the mutex held: it either completes
(and says how the fields change) or goes to sleep with the fields untouched.
-/

namespace TinyPlayer

/-! ## Data model of `Queue<T>` -/

/-- The mutex-guarded fields of `Queue<T>`; `deq` is listed head first. -/
structure Queue (T : Type) where
  deq : List T
  m_cap : Nat
  is_close : Bool
  is_pause : Bool
  deriving DecidableEq, Repr

/-- What one evaluation of the loop of `Queue<T>::push` leads to. -/
inductive PushOutcome (T : Type) where
  /-- The loop condition held: the caller sleeps in `producer.wait(lck)`. -/
  | wait : PushOutcome T
  /-- The element was appended; `q` holds the fields on return. -/
  | done (q : Queue T) : PushOutcome T
  deriving DecidableEq, Repr

/-- What one evaluation of the loop of `Queue<T>::pop` leads to. -/
inductive PopOutcome (T : Type) where
  /-- The loop condition held: the caller sleeps in `consumer.wait(lck)`. -/
  | wait : PopOutcome T
  /-- The call returned `false` and left `ele` alone. -/
  | closed : PopOutcome T
  /-- The call returned `true` with `ele` set; `q` holds the fields on return. -/
  | item (ele : T) (q : Queue T) : PopOutcome T
  deriving DecidableEq, Repr

namespace Queue

variable {T : Type}

/-- Embeds `Queue<T>::Queue(size_type cap)`: empty deque, neither paused nor closed. -/
def new (cap : Nat) : Queue T :=
  { deq := [], m_cap := cap, is_close := false, is_pause := false }

/-- Embeds `Queue<T>::empty()`. -/
def empty (q : Queue T) : Bool := q.deq.isEmpty

/-- Embeds `Queue<T>::full()`. -/
def full (q : Queue T) : Bool := decide (q.deq.length ≥ q.m_cap)

/-- Embeds `Queue<T>::size()`. -/
def size (q : Queue T) : Nat := q.deq.length

/-- Embeds `Queue<T>::capacity()`. -/
def capacity (q : Queue T) : Nat := q.m_cap

/-- Embeds `Queue<T>::clear()`. -/
def clear (q : Queue T) : Queue T := { q with deq := [] }

/-- The loop condition of `push`: `deq.size() >= m_cap || is_pause`. -/
def pushWaits (q : Queue T) : Bool := decide (q.deq.length ≥ q.m_cap) || q.is_pause

/-- Embeds `Queue<T>::push(ele)`, from the evaluation of its loop condition on: sleep
while the condition holds, otherwise `deq.push_back(ele)`.  A sleeping `push`
that is woken evaluates the same condition again, so this function also
describes every later attempt of the same call. -/
def push (q : Queue T) (ele : T) : PushOutcome T :=
  if q.pushWaits then PushOutcome.wait
  else PushOutcome.done { q with deq := q.deq ++ [ele] }

/-- The loop condition of `pop`: `deq.empty() || is_pause`. -/
def popWaits (q : Queue T) : Bool := q.deq.isEmpty || q.is_pause

/-- Embeds `Queue<T>::pop(ele)` from its entry: the loop condition is evaluated first,
and only a caller that finds it true reaches `consumer.wait(lck)`; otherwise
the head is copied to `ele` and removed. -/
def pop (q : Queue T) : PopOutcome T :=
  if q.popWaits then PopOutcome.wait
  else
    match q.deq with
    | [] => PopOutcome.wait
    | x :: rest => PopOutcome.item x { q with deq := rest }

/-- Embeds `Queue<T>::pop(ele)` continued from the return of `consumer.wait(lck)`:
`if (is_close) return false;` comes first, then the loop condition is evaluated
again. -/
def popWoken (q : Queue T) : PopOutcome T :=
  if q.is_close then PopOutcome.closed else q.pop

/-- Embeds `Queue<T>::pause()`. -/
def pause (q : Queue T) : Queue T := { q with is_pause := true }

/-- Embeds `Queue<T>::resume()`. -/
def resume (q : Queue T) : Queue T := { q with is_pause := false }

/-- Embeds `Queue<T>::close()`. -/
def close (q : Queue T) : Queue T := { q with deq := [], is_close := true }

end Queue

/-- One atomic step on a queue: an attempt of a `push` call (at entry or after
a wake-up, which run the same test), an attempt of a `pop` call at entry
(`pop`) or after a wake-up (`popWoken`), or one of the non-blocking
operations. -/
inductive Op (T : Type) where
  | push (ele : T) : Op T
  | pop : Op T
  | popWoken : Op T
  | pause : Op T
  | resume : Op T
  | clear : Op T
  | close : Op T
  deriving DecidableEq, Repr

namespace Queue

variable {T : Type}

/-- The fields after one step.  An attempt that sleeps, and a `pop` that
returns `false`, leave them as they were. -/
def step (q : Queue T) : Op T → Queue T
  | Op.push ele =>
    match q.push ele with
    | PushOutcome.done q1 => q1
    | PushOutcome.wait => q
  | Op.pop =>
    match q.pop with
    | PopOutcome.item _ q1 => q1
    | _ => q
  | Op.popWoken =>
    match q.popWoken with
    | PopOutcome.item _ q1 => q1
    | _ => q
  | Op.pause => q.pause
  | Op.resume => q.resume
  | Op.clear => q.clear
  | Op.close => q.close

/-- The fields after a sequence of steps, first step first. -/
def run (q : Queue T) : List (Op T) → Queue T
  | [] => q
  | op :: ops => (q.step op).run ops

/-- The size bound: `deq.size() <= m_cap`. -/
def Bounded (q : Queue T) : Prop := q.deq.length ≤ q.m_cap

end Queue

/-- The record of a run: the fields, the elements whose `push` has completed
(in completion order) and the elements that `pop` has returned (in order). -/
structure Trace (T : Type) where
  q : Queue T
  pushed : List T
  popped : List T
  deriving DecidableEq, Repr

namespace Trace

variable {T : Type}

/-- The record of a queue on which nothing has run yet. -/
def start (q : Queue T) : Trace T := { q := q, pushed := [], popped := [] }

/-- One step, recorded: a completed `push` adds its element to `pushed`, a
`pop` that returns `true` adds the element it returned to `popped`. -/
def step (t : Trace T) : Op T → Trace T
  | Op.push ele =>
    match t.q.push ele with
    | PushOutcome.done q1 => { q := q1, pushed := t.pushed ++ [ele], popped := t.popped }
    | PushOutcome.wait => t
  | Op.pop =>
    match t.q.pop with
    | PopOutcome.item x q1 => { q := q1, pushed := t.pushed, popped := t.popped ++ [x] }
    | _ => t
  | Op.popWoken =>
    match t.q.popWoken with
    | PopOutcome.item x q1 => { q := q1, pushed := t.pushed, popped := t.popped ++ [x] }
    | _ => t
  | Op.pause => { t with q := t.q.pause }
  | Op.resume => { t with q := t.q.resume }
  | Op.clear => { t with q := t.q.clear }
  | Op.close => { t with q := t.q.close }

/-- A sequence of steps, recorded. -/
def run (t : Trace T) : List (Op T) → Trace T
  | [] => t
  | op :: ops => (t.step op).run ops

end Trace

/-- Whether a step is `clear()` or `close()`. -/
def Op.discards {T : Type} : Op T → Bool
  | Op.clear => true
  | Op.close => true
  | _ => false

/-- Whether a step is `resume()`. -/
def Op.isResume {T : Type} : Op T → Bool
  | Op.resume => true
  | _ => false

/-! ## Data model of `Player`

The session object of `player.cpp`.  `double` and `float` values are kept in two
abstract types `D` and `F`: the control operations only store them, except for
the scaling in `seek`, which is written with the multiplication and division of
`D`.  Pointers are `Option Nat`, `none` being `nullptr`.  What the FFmpeg calls
and the clock return are arguments of the operations.  The two sinks
(`videoRender`, `audioRender`) keep their own state, which no claim below
mentions; calls on them write no field of `Player` and are left out. -/

/-- A pointer: `none` is `nullptr`, `some a` the address `a`. -/
abbrev Ptr := Option Nat

/-- The part of `AVPacket` that the session reads. -/
structure AVPacket where
  stream_index : Int
  dts : Int
  pts : Int
  duration : Int
  deriving DecidableEq, Repr

/-- The part of `AVFrame` that the session reads. -/
structure AVFrame where
  pts : Int
  pkt_duration : Int
  width : Int
  height : Int
  deriving DecidableEq, Repr

/-- The values of `codecpar->codec_type` that the stream search tells apart. -/
inductive AVMediaType where
  | AVMEDIA_TYPE_VIDEO : AVMediaType
  | AVMEDIA_TYPE_AUDIO : AVMediaType
  | AVMEDIA_TYPE_OTHER : AVMediaType
  deriving DecidableEq, Repr

/-- Embeds `AV_TIME_BASE` of libavutil. -/
def AV_TIME_BASE : Int := 1000000

/-- Conversion of an `int64_t` to `uint64_t`. -/
def toUInt64 (x : Int) : Nat := (x % 2 ^ 64).toNat

/-- The fields of `Player` (the sinks, the scratch buffer and the threads
apart). -/
structure Player (D F : Type) where
  isInit : Bool
  isOpen : Bool
  closed : Bool
  startTime : Nat
  m_speed : F
  pFormatCtx : Ptr
  pVideoCodec : Ptr
  pAudioCodec : Ptr
  pVideoCodecCtx : Ptr
  pAudioCodecCtx : Ptr
  videoStreamId : Int
  audioStreamId : Int
  startPosition : D
  currPosition : D
  videoPacketQ : Queue AVPacket
  audioPacketQ : Queue AVPacket
  videoFrameQ : Queue AVFrame
  deriving DecidableEq, Repr

/-- What the FFmpeg calls of one decoder setup return. -/
structure DecoderEnv where
  /-- Result of `avcodec_find_decoder`. -/
  codec : Ptr
  /-- Result of `avcodec_alloc_context3`. -/
  codecCtx : Ptr
  /-- Result of `avcodec_parameters_to_context`. -/
  parametersRet : Int
  /-- Result of `avcodec_open2`. -/
  open2Ret : Int
  deriving DecidableEq, Repr

/-- What the FFmpeg calls of one `Player::open` return. -/
structure OpenEnv where
  /-- Result of `avformat_open_input`. -/
  openInputRet : Int
  /-- The pointer `avformat_open_input` leaves in `pFormatCtx`. -/
  openInputCtx : Ptr
  /-- Result of `avformat_find_stream_info`. -/
  findStreamInfoRet : Int
  /-- The `codec_type` of `pFormatCtx->streams[i]`, for `i < nb_streams`. -/
  streams : List AVMediaType
  video : DecoderEnv
  audio : DecoderEnv
  deriving DecidableEq, Repr

/-- The loop of `getVideoStream` and `getAudioStream`: the first index from
`i` on whose stream has codec type `ty`. -/
def findStream (ty : AVMediaType) : List AVMediaType → Int → Option Int
  | [], _ => none
  | t :: ts, i => if t = ty then some i else findStream ty ts (i + 1)

namespace Player

variable {D F : Type}

/-- Embeds `Player::Player()`: three queues of capacity 5, all flags false, null
pointers, clock at zero, speed 1.  The stream identifiers are value-initialised
by their `{}` initialisers. -/
def new [Zero D] [One F] : Player D F :=
  { isInit := false, isOpen := false, closed := false, startTime := 0, m_speed := 1,
    pFormatCtx := none, pVideoCodec := none, pAudioCodec := none,
    pVideoCodecCtx := none, pAudioCodecCtx := none,
    videoStreamId := 0, audioStreamId := 0, startPosition := 0, currPosition := 0,
    videoPacketQ := Queue.new 5, audioPacketQ := Queue.new 5, videoFrameQ := Queue.new 5 }

/-- Embeds `Player::init`. -/
def init (p : Player D F) : Player D F :=
  if p.isInit then p else { p with isInit := true }

/-- Embeds `Player::startPlay`; `now` is what `av_gettime()` returns. -/
def startPlay [Zero D] [One F] (p : Player D F) (now : Int) : Player D F :=
  { p with
    audioPacketQ := p.audioPacketQ.resume
    videoPacketQ := p.videoPacketQ.resume
    videoFrameQ := p.videoFrameQ.resume
    startTime := toUInt64 now
    startPosition := 0
    currPosition := 0
    m_speed := 1 }

/-- Embeds `Player::resume`; `now` is what `av_gettime()` returns. -/
def resume (p : Player D F) (now : Int) : Player D F :=
  { p with
    audioPacketQ := p.audioPacketQ.resume
    videoPacketQ := p.videoPacketQ.resume
    videoFrameQ := p.videoFrameQ.resume
    startTime := toUInt64 now
    startPosition := p.currPosition }

/-- Embeds `Player::pause`. -/
def pause (p : Player D F) : Player D F :=
  { p with
    audioPacketQ := p.audioPacketQ.pause
    videoFrameQ := p.videoFrameQ.pause
    videoPacketQ := p.videoPacketQ.pause }

/-- Embeds `Player::seek`; `duration` is `pFormatCtx->duration`, `seekRet` what
`av_seek_frame` returns and `now` what `av_gettime()` returns.  The result is
the session after the call and the status returned. -/
def seek [Mul D] [Div D] [IntCast D] (p : Player D F) (position : D)
    (duration seekRet now : Int) : Player D F × Int :=
  if !p.isOpen then (p, -1)
  else
    let position1 : D := position * (duration : D) / (AV_TIME_BASE : D)
    let ret := seekRet
    if ret ≥ 0 then
      ({ p with startTime := toUInt64 now, startPosition := position1,
                currPosition := position1 }, ret)
    else (p, ret)

/-- Embeds `Player::setSpeed`. -/
def setSpeed (p : Player D F) (speed : F) : Player D F × Int :=
  if !p.isOpen then (p, -1) else ({ p with m_speed := speed }, 0)

/-- Embeds `Player::getPosition`. -/
def getPosition (p : Player D F) : D := p.currPosition

/-- Embeds `Player::getDuration`; `duration` is `pFormatCtx->duration`. -/
def getDuration [Div D] [IntCast D] (duration : Int) : D :=
  (duration : D) / (AV_TIME_BASE : D)

/-- Embeds `Player::stop`.  `avformat_close_input` writes `nullptr` to the pointer it
is given; `avcodec_close` leaves the pointers as they are. -/
def stop [Zero D] (p : Player D F) : Player D F :=
  { p with
    isOpen := false
    isInit := false
    startPosition := 0
    currPosition := 0
    pFormatCtx := none
    videoPacketQ := p.videoPacketQ.clear
    videoFrameQ := p.videoFrameQ.clear
    audioPacketQ := p.audioPacketQ.clear }

/-- Embeds `Player::getVideoStream`: the session after the call and the index of the
stream returned (`none` for `nullptr`). -/
def getVideoStream (p : Player D F) (streams : List AVMediaType) : Player D F × Option Int :=
  match findStream AVMediaType.AVMEDIA_TYPE_VIDEO streams 0 with
  | some i => ({ p with videoStreamId := i }, some i)
  | none => (p, none)

/-- Embeds `Player::getAudioStream`: the session after the call and the index of the
stream returned (`none` for `nullptr`). -/
def getAudioStream (p : Player D F) (streams : List AVMediaType) : Player D F × Option Int :=
  match findStream AVMediaType.AVMEDIA_TYPE_AUDIO streams 0 with
  | some i => ({ p with audioStreamId := i }, some i)
  | none => (p, none)

/-- Embeds `Player::openVideoDecoder`.  `avformat_free_context(pFormatCtx)` takes the
pointer by value and leaves the field as it is; `avcodec_free_context` writes
`nullptr` to the pointer it is given. -/
def openVideoDecoder (p : Player D F) (streams : List AVMediaType) (e : DecoderEnv) :
    Player D F × Bool :=
  match p.getVideoStream streams with
  | (p1, none) => (p1, false)
  | (p1, some _) =>
    let p2 := { p1 with pVideoCodec := e.codec }
    if e.codec = none then (p2, false)
    else
      let p3 := { p2 with pVideoCodecCtx := e.codecCtx }
      if e.codecCtx = none then (p3, false)
      else if e.parametersRet < 0 then ({ p3 with pVideoCodecCtx := none }, false)
      else if e.open2Ret < 0 then ({ p3 with pVideoCodecCtx := none }, false)
      else (p3, true)

/-- Embeds `Player::openAudioDecoder`. -/
def openAudioDecoder (p : Player D F) (streams : List AVMediaType) (e : DecoderEnv) :
    Player D F × Bool :=
  match p.getAudioStream streams with
  | (p1, none) => (p1, false)
  | (p1, some _) =>
    let p2 := { p1 with pAudioCodec := e.codec }
    if e.codec = none then (p2, false)
    else
      let p3 := { p2 with pAudioCodecCtx := e.codecCtx }
      if e.codecCtx = none then (p3, false)
      else if e.parametersRet < 0 then ({ p3 with pAudioCodecCtx := none }, false)
      else if e.open2Ret < 0 then ({ p3 with pAudioCodecCtx := none }, false)
      else (p3, true)

/-- Embeds `Player::open` (`open` is a keyword here, hence the name): the session after
the call and the value returned. -/
def openFile (p : Player D F) (e : OpenEnv) : Player D F × Bool :=
  if p.isOpen then (p, true)
  else
    let p1 := { p with pFormatCtx := e.openInputCtx }
    if e.openInputRet < 0 then (p1, false)
    else if e.findStreamInfoRet < 0 then (p1, false)
    else
      match p1.openVideoDecoder e.streams e.video with
      | (p2, false) => (p2, false)
      | (p2, true) =>
        match p2.openAudioDecoder e.streams e.audio with
        | (p3, false) => (p3, false)
        | (p3, true) => ({ p3 with isOpen := true }, true)

/-- The fields that `Player::open` does not write when it fails: the flags,
the clock, the speed and the queues. -/
def SameControl (p p1 : Player D F) : Prop :=
  p1.isInit = p.isInit ∧ p1.isOpen = p.isOpen ∧ p1.closed = p.closed ∧
    p1.startTime = p.startTime ∧ p1.startPosition = p.startPosition ∧
    p1.currPosition = p.currPosition ∧ p1.m_speed = p.m_speed ∧
    p1.videoPacketQ = p.videoPacketQ ∧ p1.audioPacketQ = p.audioPacketQ ∧
    p1.videoFrameQ = p.videoFrameQ

end Player

/-- A source that opens and has a video stream, then an audio stream, with a
decoder for each. -/
def sampleSource : OpenEnv :=
  { openInputRet := 0, openInputCtx := some 1, findStreamInfoRet := 0,
    streams := [AVMediaType.AVMEDIA_TYPE_VIDEO, AVMediaType.AVMEDIA_TYPE_AUDIO],
    video := { codec := some 2, codecCtx := some 3, parametersRet := 0, open2Ret := 0 },
    audio := { codec := some 4, codecCtx := some 5, parametersRet := 0, open2Ret := 0 } }

/-- A source that opens and has an audio stream, then a video stream, and no
decoder for the codec of the video stream. -/
def sampleSourceNoVideoDecoder : OpenEnv :=
  { openInputRet := 0, openInputCtx := some 1, findStreamInfoRet := 0,
    streams := [AVMediaType.AVMEDIA_TYPE_AUDIO, AVMediaType.AVMEDIA_TYPE_VIDEO],
    video := { codec := none, codecCtx := none, parametersRet := 0, open2Ret := 0 },
    audio := { codec := some 4, codecCtx := some 5, parametersRet := 0, open2Ret := 0 } }

/-- The session after `init` and a successful `open` of `sampleSource` on a
newly constructed session, with rational numbers for `double` and `float`. -/
def sampleSession : Player ℚ ℚ := ((Player.new : Player ℚ ℚ).init.openFile sampleSource).1

/-! ## The stage workers

Each worker function of `player.cpp` is one `while (true)` loop.  An iteration
is embedded as a function of the session at the top of the loop and of what the
FFmpeg calls of that iteration return; its result says where the iteration
ends: the loop is left, the worker sleeps (in the control wait, or inside a
blocking queue call), or the body has run to its end. -/

/-- Where one iteration of a worker loop ends. -/
inductive WorkerStep (S : Type) where
  /-- The `break` was taken: the worker function returns. -/
  | leave : WorkerStep S
  /-- The worker sleeps in `worker.wait(lck, [this]{ return isOpen; })`. -/
  | waitOpen : WorkerStep S
  /-- The worker sleeps inside `pop` on its input queue; `s` is the session. -/
  | waitPop (s : S) : WorkerStep S
  /-- The worker sleeps inside `push` on its output queue; `s` is the session. -/
  | waitPush (s : S) : WorkerStep S
  /-- The body ran to its end; `s` is the session at the next top of the loop. -/
  | next (s : S) : WorkerStep S
  deriving DecidableEq, Repr

/-- The value of `AVERROR_EOF` of libavutil, `-MKTAG('E','O','F',' ')`. -/
def AVERROR_EOF : Int := -541478725

/-- The value of `AV_NOPTS_VALUE` of libavutil. -/
def AV_NOPTS_VALUE : Int := -9223372036854775808

/-- The packet `av_packet_alloc()` returns, which is also what `av_read_frame`
leaves in its packet when it fails. -/
def blankPacket : AVPacket :=
  { stream_index := 0, dts := AV_NOPTS_VALUE, pts := AV_NOPTS_VALUE, duration := 0 }

/-- The size in bytes of the scratch buffer, `uint8_t audioUserData[88200]`. -/
def audioUserDataSize : Int := 88200

/-- The result of `av_get_channel_layout_nb_channels(AV_CH_LAYOUT_STEREO)`. -/
def nbChannelsStereo : Int := 2

/-- The local `pcmBufSize` of `decodeAudioPacket`, `nbChannels * inSampleRate`,
the number of bytes that `memcpy` copies into `audioUserData`. -/
def pcmBufSize (inSampleRate : Int) : Int := nbChannelsStereo * inSampleRate

namespace Player

variable {D F : Type}

/-- Embeds one iteration of `Player::addPacket`; `ret` is what `av_read_frame`
returns and `pkt` the packet it leaves behind. -/
def addPacket (p : Player D F) (ret : Int) (pkt : AVPacket) : WorkerStep (Player D F) :=
  if p.closed then WorkerStep.leave
  else if !p.isOpen then WorkerStep.waitOpen
  else
    let videoStreamId_ := p.videoStreamId
    let p1 : Player D F :=
      if ret < 0 then
        if AVERROR_EOF = ret then { p with isOpen := false } else p
      else p
    if pkt.stream_index = videoStreamId_ then
      match p1.videoPacketQ.push pkt with
      | PushOutcome.done q => WorkerStep.next { p1 with videoPacketQ := q }
      | PushOutcome.wait => WorkerStep.waitPush p1
    else if pkt.stream_index = p1.audioStreamId then
      match p1.audioPacketQ.push pkt with
      | PushOutcome.done q => WorkerStep.next { p1 with audioPacketQ := q }
      | PushOutcome.wait => WorkerStep.waitPush p1
    else WorkerStep.next p1

/-- Embeds one iteration of `Player::decodeVideoPacket`; `sendRet` is what
`avcodec_send_packet` returns, `receiveRet` what `avcodec_receive_frame`
returns and `frame` the frame it fills.  A `pop` that returns `false` leaves
`pkt` null, and the iteration ends at `continue`. -/
def decodeVideoPacket (p : Player D F) (sendRet receiveRet : Int) (frame : AVFrame) :
    WorkerStep (Player D F) :=
  if p.closed then WorkerStep.leave
  else if !p.isOpen then WorkerStep.waitOpen
  else
    match p.videoPacketQ.pop with
    | PopOutcome.wait => WorkerStep.waitPop p
    | PopOutcome.closed => WorkerStep.next p
    | PopOutcome.item _ q =>
      let p1 : Player D F := { p with videoPacketQ := q }
      let p2 : Player D F :=
        if sendRet < 0 then
          if AVERROR_EOF = sendRet then { p1 with isOpen := false } else p1
        else p1
      if receiveRet = 0 then
        match p2.videoFrameQ.push frame with
        | PushOutcome.done q2 => WorkerStep.next { p2 with videoFrameQ := q2 }
        | PushOutcome.wait => WorkerStep.waitPush p2
      else if AVERROR_EOF = receiveRet then WorkerStep.next { p2 with isOpen := false }
      else WorkerStep.next p2

/-- Embeds one iteration of `Player::decodeAudioPacket`; `sendRet` is what
`avcodec_send_packet` returns, `receiveRet` what `avcodec_receive_frame`
returns and `inSampleRate` is `pAudioCodecCtx_->sample_rate`.  The second
component is the number of bytes the iteration copies into `audioUserData`
(`none` when it does not reach the `memcpy`). -/
def decodeAudioPacket (p : Player D F) (sendRet receiveRet inSampleRate : Int) :
    WorkerStep (Player D F) × Option Int :=
  if !p.isOpen then (WorkerStep.waitOpen, none)
  else
    match p.audioPacketQ.pop with
    | PopOutcome.wait => (WorkerStep.waitPop p, none)
    | PopOutcome.closed => (WorkerStep.next p, none)
    | PopOutcome.item _ q =>
      let p1 : Player D F := { p with audioPacketQ := q }
      let p2 : Player D F :=
        if sendRet < 0 then
          if AVERROR_EOF = sendRet then { p1 with isOpen := false } else p1
        else p1
      if receiveRet = 0 then (WorkerStep.next p2, some (pcmBufSize inSampleRate))
      else if AVERROR_EOF = receiveRet then (WorkerStep.next { p2 with isOpen := false }, none)
      else (WorkerStep.next p2, none)

/-- Embeds one iteration of `Player::renderVideo`; `num` and `den` are the
`time_base` of the video stream. -/
def renderVideo [Mul D] [Div D] [IntCast D] (p : Player D F) (num den : Int) :
    WorkerStep (Player D F) :=
  if p.closed then WorkerStep.leave
  else if !p.isOpen then WorkerStep.waitOpen
  else
    match p.videoFrameQ.pop with
    | PopOutcome.wait => WorkerStep.waitPop p
    | PopOutcome.closed => WorkerStep.next p
    | PopOutcome.item frame q =>
      WorkerStep.next
        { p with videoFrameQ := q, currPosition := (frame.pts : D) * (num : D) / (den : D) }

/-- Embeds the writes of `Player::~Player()` before it joins the workers. -/
def shutdown (p : Player D F) : Player D F := { p with closed := true }

end Player

/-- The sample session with one audio packet waiting in `audioPacketQ`. -/
def sampleSessionWithAudio : Player ℚ ℚ :=
  { sampleSession with
    audioPacketQ :=
      { sampleSession.audioPacketQ with
        deq := [{ stream_index := 1, dts := 0, pts := 0, duration := 1024 }] } }

/-! ## Lemmas on single steps -/

namespace Queue

variable {T : Type}

theorem push_eq_wait_iff (q : Queue T) (ele : T) :
    q.push ele = PushOutcome.wait ↔ (q.m_cap ≤ q.deq.length ∨ q.is_pause = true) := by
  unfold push pushWaits
  by_cases h1 : q.m_cap ≤ q.deq.length <;> by_cases h2 : q.is_pause = true <;> simp [h1, h2]

theorem push_eq_done_iff (q q1 : Queue T) (ele : T) :
    q.push ele = PushOutcome.done q1 ↔
      (q.deq.length < q.m_cap ∧ q.is_pause = false ∧ q1 = { q with deq := q.deq ++ [ele] }) := by
  unfold push pushWaits
  by_cases h1 : q.m_cap ≤ q.deq.length <;> by_cases h2 : q.is_pause = true
  · simp [h1, h2]
  · simp [h1, h2]
  · simp [h1, h2]
  · have h3 : q.deq.length < q.m_cap := by omega
    simp [h1, h2, h3, eq_comm]

theorem pop_eq_item_iff (q q1 : Queue T) (x : T) :
    q.pop = PopOutcome.item x q1 ↔
      (q.is_pause = false ∧ ∃ rest, q.deq = x :: rest ∧ q1 = { q with deq := rest }) := by
  obtain ⟨d, c, cl, p⟩ := q
  cases d with
  | nil => simp [pop, popWaits]
  | cons y rest =>
    cases p
    · simp only [pop, popWaits, List.isEmpty_cons, Bool.or_self, Bool.false_eq_true, if_false,
        PopOutcome.item.injEq, List.cons.injEq, true_and]
      constructor
      · rintro ⟨rfl, rfl⟩
        exact ⟨rest, ⟨rfl, rfl⟩, rfl⟩
      · rintro ⟨r, ⟨rfl, rfl⟩, rfl⟩
        exact ⟨rfl, rfl⟩
    · simp [pop, popWaits]

theorem popWoken_eq_item_iff (q q1 : Queue T) (x : T) :
    q.popWoken = PopOutcome.item x q1 ↔
      (q.is_close = false ∧ q.pop = PopOutcome.item x q1) := by
  unfold popWoken
  by_cases h : q.is_close = true <;> simp [h]

theorem step_bounded (q : Queue T) (op : Op T) (hq : q.Bounded) : (q.step op).Bounded := by
  unfold Bounded at *
  cases op with
  | push ele =>
    simp only [step]
    cases h : q.push ele with
    | wait => exact hq
    | done q1 =>
      obtain ⟨hlt, _, rfl⟩ := (push_eq_done_iff q q1 ele).1 h
      simp only [List.length_append, List.length_singleton]
      omega
  | pop =>
    simp only [step]
    cases h : q.pop with
    | wait => exact hq
    | closed => exact hq
    | item x q1 =>
      obtain ⟨_, rest, hd, rfl⟩ := (pop_eq_item_iff q q1 x).1 h
      rw [hd, List.length_cons] at hq
      simp only
      omega
  | popWoken =>
    simp only [step]
    cases h : q.popWoken with
    | wait => exact hq
    | closed => exact hq
    | item x q1 =>
      obtain ⟨_, h1⟩ := (popWoken_eq_item_iff q q1 x).1 h
      obtain ⟨_, rest, hd, rfl⟩ := (pop_eq_item_iff q q1 x).1 h1
      rw [hd, List.length_cons] at hq
      simp only
      omega
  | pause => exact hq
  | resume => exact hq
  | clear => simp [step, clear]
  | close => simp [step, close]

theorem step_m_cap (q : Queue T) (op : Op T) : (q.step op).m_cap = q.m_cap := by
  cases op with
  | push ele =>
    simp only [step]
    cases h : q.push ele with
    | wait => rfl
    | done q1 =>
      obtain ⟨_, _, rfl⟩ := (push_eq_done_iff q q1 ele).1 h
      rfl
  | pop =>
    simp only [step]
    cases h : q.pop with
    | wait => rfl
    | closed => rfl
    | item x q1 =>
      obtain ⟨_, rest, _, rfl⟩ := (pop_eq_item_iff q q1 x).1 h
      rfl
  | popWoken =>
    simp only [step]
    cases h : q.popWoken with
    | wait => rfl
    | closed => rfl
    | item x q1 =>
      obtain ⟨_, h1⟩ := (popWoken_eq_item_iff q q1 x).1 h
      obtain ⟨_, rest, _, rfl⟩ := (pop_eq_item_iff q q1 x).1 h1
      rfl
  | pause => rfl
  | resume => rfl
  | clear => rfl
  | close => rfl

theorem run_bounded (q : Queue T) (ops : List (Op T)) (hq : q.Bounded) : (q.run ops).Bounded := by
  induction ops generalizing q with
  | nil => exact hq
  | cons op ops ih => exact ih (q.step op) (step_bounded q op hq)

theorem run_m_cap (q : Queue T) (ops : List (Op T)) : (q.run ops).m_cap = q.m_cap := by
  induction ops generalizing q with
  | nil => rfl
  | cons op ops ih => exact (ih (q.step op)).trans (step_m_cap q op)

theorem step_is_pause (q : Queue T) (op : Op T) (hop : op.isResume = false)
    (hq : q.is_pause = true) : (q.step op).is_pause = true := by
  cases op with
  | push ele =>
    simp only [step]
    rw [(push_eq_wait_iff q ele).2 (Or.inr hq)]
    exact hq
  | pop =>
    simp only [step]
    cases h : q.pop with
    | wait => exact hq
    | closed => exact hq
    | item x q1 =>
      obtain ⟨hf, _⟩ := (pop_eq_item_iff q q1 x).1 h
      rw [hq] at hf
      cases hf
  | popWoken =>
    simp only [step]
    cases h : q.popWoken with
    | wait => exact hq
    | closed => exact hq
    | item x q1 =>
      obtain ⟨_, h1⟩ := (popWoken_eq_item_iff q q1 x).1 h
      obtain ⟨hf, _⟩ := (pop_eq_item_iff q q1 x).1 h1
      rw [hq] at hf
      cases hf
  | pause => rfl
  | resume => cases hop
  | clear => exact hq
  | close => exact hq

theorem run_is_pause (q : Queue T) (ops : List (Op T)) (hops : ∀ op ∈ ops, op.isResume = false)
    (hq : q.is_pause = true) : (q.run ops).is_pause = true := by
  induction ops generalizing q with
  | nil => exact hq
  | cons op ops ih =>
    exact ih (q.step op) (fun o ho => hops o (List.mem_cons_of_mem _ ho))
      (step_is_pause q op (hops op (List.mem_cons_self _ _)) hq)

end Queue

namespace Trace

variable {T : Type}

theorem step_q (t : Trace T) (op : Op T) : (t.step op).q = t.q.step op := by
  cases op with
  | push ele =>
    simp only [step, Queue.step]
    cases t.q.push ele <;> rfl
  | pop =>
    simp only [step, Queue.step]
    cases t.q.pop <;> rfl
  | popWoken =>
    simp only [step, Queue.step]
    cases t.q.popWoken <;> rfl
  | pause => rfl
  | resume => rfl
  | clear => rfl
  | close => rfl

theorem run_q (t : Trace T) (ops : List (Op T)) : (t.run ops).q = t.q.run ops := by
  induction ops generalizing t with
  | nil => rfl
  | cons op ops ih =>
    simp only [run, Queue.run]
    rw [ih, step_q]

theorem step_fifo (t : Trace T) (op : Op T) (hop : op.discards = false)
    (ht : t.pushed = t.popped ++ t.q.deq) :
    (t.step op).pushed = (t.step op).popped ++ (t.step op).q.deq := by
  cases op with
  | push ele =>
    simp only [step]
    cases h : t.q.push ele with
    | wait => exact ht
    | done q1 =>
      obtain ⟨_, _, rfl⟩ := (Queue.push_eq_done_iff t.q q1 ele).1 h
      simp only [ht, List.append_assoc]
  | pop =>
    simp only [step]
    cases h : t.q.pop with
    | wait => exact ht
    | closed => exact ht
    | item x q1 =>
      obtain ⟨_, rest, hd, rfl⟩ := (Queue.pop_eq_item_iff t.q q1 x).1 h
      simp only [ht, hd, List.append_assoc, List.singleton_append]
  | popWoken =>
    simp only [step]
    cases h : t.q.popWoken with
    | wait => exact ht
    | closed => exact ht
    | item x q1 =>
      obtain ⟨_, h1⟩ := (Queue.popWoken_eq_item_iff t.q q1 x).1 h
      obtain ⟨_, rest, hd, rfl⟩ := (Queue.pop_eq_item_iff t.q q1 x).1 h1
      simp only [ht, hd, List.append_assoc, List.singleton_append]
  | pause => exact ht
  | resume => exact ht
  | clear => cases hop
  | close => cases hop

theorem run_fifo (t : Trace T) (ops : List (Op T)) (hops : ∀ op ∈ ops, op.discards = false)
    (ht : t.pushed = t.popped ++ t.q.deq) :
    (t.run ops).pushed = (t.run ops).popped ++ (t.run ops).q.deq := by
  induction ops generalizing t with
  | nil => exact ht
  | cons op ops ih =>
    exact ih (t.step op) (fun o ho => hops o (List.mem_cons_of_mem _ ho))
      (step_fifo t op (hops op (List.mem_cons_self _ _)) ht)

end Trace

/-! ## Lemmas on `Player::open` -/

namespace Player

variable {D F : Type}

theorem SameControl.refl (p : Player D F) : SameControl p p :=
  ⟨rfl, rfl, rfl, rfl, rfl, rfl, rfl, rfl, rfl, rfl⟩

theorem SameControl.trans {p p1 p2 : Player D F} (h1 : SameControl p p1)
    (h2 : SameControl p1 p2) : SameControl p p2 := by
  unfold SameControl at *
  obtain ⟨a1, a2, a3, a4, a5, a6, a7, a8, a9, a10⟩ := h1
  obtain ⟨b1, b2, b3, b4, b5, b6, b7, b8, b9, b10⟩ := h2
  exact ⟨b1.trans a1, b2.trans a2, b3.trans a3, b4.trans a4, b5.trans a5, b6.trans a6,
    b7.trans a7, b8.trans a8, b9.trans a9, b10.trans a10⟩

theorem getVideoStream_sameControl (p : Player D F) (streams : List AVMediaType) :
    SameControl p (p.getVideoStream streams).1 := by
  unfold getVideoStream
  split <;> exact ⟨rfl, rfl, rfl, rfl, rfl, rfl, rfl, rfl, rfl, rfl⟩

theorem getAudioStream_sameControl (p : Player D F) (streams : List AVMediaType) :
    SameControl p (p.getAudioStream streams).1 := by
  unfold getAudioStream
  split <;> exact ⟨rfl, rfl, rfl, rfl, rfl, rfl, rfl, rfl, rfl, rfl⟩

theorem openVideoDecoder_sameControl (p : Player D F) (streams : List AVMediaType)
    (e : DecoderEnv) : SameControl p (p.openVideoDecoder streams e).1 := by
  have h := getVideoStream_sameControl p streams
  unfold openVideoDecoder
  split
  · rename_i p1 heq
    rw [heq] at h
    exact h
  · rename_i p1 i heq
    rw [heq] at h
    refine SameControl.trans h ?_
    simp only
    split_ifs <;> exact ⟨rfl, rfl, rfl, rfl, rfl, rfl, rfl, rfl, rfl, rfl⟩

theorem openAudioDecoder_sameControl (p : Player D F) (streams : List AVMediaType)
    (e : DecoderEnv) : SameControl p (p.openAudioDecoder streams e).1 := by
  have h := getAudioStream_sameControl p streams
  unfold openAudioDecoder
  split
  · rename_i p1 heq
    rw [heq] at h
    exact h
  · rename_i p1 i heq
    rw [heq] at h
    refine SameControl.trans h ?_
    simp only
    split_ifs <;> exact ⟨rfl, rfl, rfl, rfl, rfl, rfl, rfl, rfl, rfl, rfl⟩

theorem openFile_false_sameControl (p : Player D F) (e : OpenEnv)
    (h : (p.openFile e).2 = false) : SameControl p (p.openFile e).1 ∧ p.isOpen = false := by
  unfold openFile at h ⊢
  by_cases ho : p.isOpen = true
  · rw [if_pos ho] at h
    cases h
  · have hf : p.isOpen = false := by simpa using ho
    refine ⟨?_, hf⟩
    rw [if_neg ho] at h ⊢
    have h0 : SameControl p { p with pFormatCtx := e.openInputCtx } :=
      ⟨rfl, rfl, rfl, rfl, rfl, rfl, rfl, rfl, rfl, rfl⟩
    simp only at h ⊢
    split_ifs at h ⊢
    · exact h0
    · exact h0
    · have hv := openVideoDecoder_sameControl
        ({ p with pFormatCtx := e.openInputCtx } : Player D F) e.streams e.video
      generalize openVideoDecoder ({ p with pFormatCtx := e.openInputCtx } : Player D F)
        e.streams e.video = r at h hv ⊢
      obtain ⟨p2, b2⟩ := r
      cases b2 with
      | false => exact h0.trans hv
      | true =>
        have ha := openAudioDecoder_sameControl p2 e.streams e.audio
        simp only at h hv ha ⊢
        generalize openAudioDecoder p2 e.streams e.audio = r3 at h ha ⊢
        obtain ⟨p3, b3⟩ := r3
        cases b3 with
        | false => exact h0.trans (hv.trans ha)
        | true => cases h

end Player

/-! ## The queue claims -/

/-- C1. Starting from a newly constructed queue of capacity `cap`, after every
step of every sequence of steps (attempts of `push` and `pop`, `pause`,
`resume`, `clear`, `close`) the capacity is still `cap` and the number of stored
elements is at most `cap`.  The size is a `size_type`, an unsigned count, so it
is never negative. -/
theorem queue_size_le_capacity {T : Type} (cap : Nat) (ops : List (Op T)) (k : Nat) :
    ((Queue.new cap : Queue T).run (ops.take k)).capacity = cap ∧
      ((Queue.new cap : Queue T).run (ops.take k)).size ≤ cap ∧
      0 ≤ ((Queue.new cap : Queue T).run (ops.take k)).size := by
  have hcap := Queue.run_m_cap (Queue.new cap : Queue T) (ops.take k)
  have hb := Queue.run_bounded (Queue.new cap : Queue T) (ops.take k)
    (by simp [Queue.Bounded, Queue.new])
  refine ⟨hcap, ?_, Nat.zero_le _⟩
  unfold Queue.Bounded at hb
  rw [hcap] at hb
  exact hb

/-- C2. The queue is first-in first-out.  A completed `push` appends at the
tail and a `pop` that returns `true` removes and returns the head.  Hence for a
newly constructed queue and every sequence of steps without `clear` and `close`,
the elements pushed so far are the elements popped so far followed by the
current contents: the popped elements are an initial segment of the pushed
ones, and what is stored is what was pushed and not yet popped, in push order. -/
theorem queue_fifo {T : Type} (cap : Nat) (ops : List (Op T))
    (hops : ∀ op ∈ ops, op.discards = false) :
    (∀ (q q1 : Queue T) (ele : T), q.push ele = PushOutcome.done q1 → q1.deq = q.deq ++ [ele]) ∧
      (∀ (q q1 : Queue T) (x : T), q.pop = PopOutcome.item x q1 → q.deq = x :: q1.deq) ∧
      ((Trace.start (Queue.new cap : Queue T)).run ops).q = (Queue.new cap : Queue T).run ops ∧
      ((Trace.start (Queue.new cap : Queue T)).run ops).pushed =
        ((Trace.start (Queue.new cap : Queue T)).run ops).popped ++
          ((Queue.new cap : Queue T).run ops).deq ∧
      ((Trace.start (Queue.new cap : Queue T)).run ops).popped <+:
        ((Trace.start (Queue.new cap : Queue T)).run ops).pushed := by
  have hq := Trace.run_q (Trace.start (Queue.new cap : Queue T)) ops
  have hf := Trace.run_fifo (Trace.start (Queue.new cap : Queue T)) ops hops
    (by simp [Trace.start, Queue.new])
  refine ⟨?_, ?_, hq, ?_, ?_⟩
  · intro q q1 ele h
    obtain ⟨_, _, rfl⟩ := (Queue.push_eq_done_iff q q1 ele).1 h
    rfl
  · intro q q1 x h
    obtain ⟨_, rest, hd, rfl⟩ := (Queue.pop_eq_item_iff q q1 x).1 h
    exact hd
  · rw [hf, hq]
    rfl
  · exact ⟨_, hf.symm⟩

/-- C2, at capacity 2 with the steps push 1, push 2, pop, pause, resume,
push 3. -/
theorem queue_fifo_witness :
    ((Trace.start (Queue.new 2 : Queue Nat)).run
        [Op.push 1, Op.push 2, Op.pop, Op.pause, Op.resume, Op.push 3]).pushed = [1, 2, 3] ∧
      ((Trace.start (Queue.new 2 : Queue Nat)).run
        [Op.push 1, Op.push 2, Op.pop, Op.pause, Op.resume, Op.push 3]).popped = [1] ∧
      ((Queue.new 2 : Queue Nat).run
        [Op.push 1, Op.push 2, Op.pop, Op.pause, Op.resume, Op.push 3]).deq = [2, 3] ∧
      ((Trace.start (Queue.new 2 : Queue Nat)).run
        [Op.push 1, Op.push 2, Op.pop, Op.pause, Op.resume, Op.push 3]).pushed =
        ((Trace.start (Queue.new 2 : Queue Nat)).run
          [Op.push 1, Op.push 2, Op.pop, Op.pause, Op.resume, Op.push 3]).popped ++
          ((Queue.new 2 : Queue Nat).run
            [Op.push 1, Op.push 2, Op.pop, Op.pause, Op.resume, Op.push 3]).deq :=
  ⟨by decide, by decide, by decide,
    (queue_fifo 2 [Op.push 1, Op.push 2, Op.pop, Op.pause, Op.resume, Op.push 3]
      (by decide)).2.2.2.1⟩

/-- C3. A `pop` that was already asleep when the queue was closed returns
`false` (the closed signal) as soon as it is woken, but a `pop` that is called
after `close()` finds the deque empty and goes to sleep in `consumer.wait`
without looking at `is_close`: it does not return the closed signal. -/
theorem pop_after_close_sleeps {T : Type} (q : Queue T) :
    q.close.popWoken = PopOutcome.closed ∧ q.close.pop = PopOutcome.wait ∧
      (Queue.new 5 : Queue T).close.pop = PopOutcome.wait := by
  refine ⟨?_, ?_, ?_⟩ <;> simp [Queue.close, Queue.popWoken, Queue.pop, Queue.popWaits]

/-- C4. `pause()` followed by `resume()` leaves the stored elements, their
order, the capacity and the closed flag as they were; each of the two writes
the paused flag only, which ends false. -/
theorem pause_resume_preserves {T : Type} (q : Queue T) :
    q.pause.resume.deq = q.deq ∧ q.pause.resume.m_cap = q.m_cap ∧
      q.pause.resume.is_close = q.is_close ∧ q.pause.resume.is_pause = false ∧
      q.pause = { q with is_pause := true } ∧ q.resume = { q with is_pause := false } ∧
      q.pause.resume = { q with is_pause := false } :=
  ⟨rfl, rfl, rfl, rfl, rfl, rfl, rfl⟩

/-- C5. Backpressure without loss, on an empty unpaused queue of capacity 2:
`push(A)` and `push(B)` complete; `push(C)` then sleeps and the contents stay
`[A, B]`; `pop()` returns `A`; after that the same `push(C)` completes and the
contents are `[B, C]`. -/
theorem backpressure_capacity_two {T : Type} (q : Queue T) (A B C : T)
    (hcap : q.m_cap = 2) (hdeq : q.deq = []) (hpause : q.is_pause = false) :
    ∃ q1 q2 q3 q4 : Queue T,
      q.push A = PushOutcome.done q1 ∧ q1.push B = PushOutcome.done q2 ∧
      q2.deq = [A, B] ∧ q2.push C = PushOutcome.wait ∧ q2.step (Op.push C) = q2 ∧
      q2.pop = PopOutcome.item A q3 ∧ q3.deq = [B] ∧
      q3.push C = PushOutcome.done q4 ∧ q4.deq = [B, C] ∧ q4.m_cap = 2 := by
  obtain ⟨d, c, cl, p⟩ := q
  simp only at hcap hdeq hpause
  subst hcap hdeq hpause
  refine ⟨⟨[A], 2, cl, false⟩, ⟨[A, B], 2, cl, false⟩, ⟨[B], 2, cl, false⟩,
    ⟨[B, C], 2, cl, false⟩, ?_, ?_, rfl, ?_, ?_, ?_, rfl, ?_, rfl, rfl⟩ <;>
    simp [Queue.push, Queue.pushWaits, Queue.pop, Queue.popWaits, Queue.step]

/-- C5, on a newly constructed queue of capacity 2 with the elements 10, 20
and 30. -/
theorem backpressure_capacity_two_witness :
    ∃ q1 q2 q3 q4 : Queue Nat,
      (Queue.new 2 : Queue Nat).push 10 = PushOutcome.done q1 ∧
      q1.push 20 = PushOutcome.done q2 ∧
      q2.deq = [10, 20] ∧ q2.push 30 = PushOutcome.wait ∧ q2.step (Op.push 30) = q2 ∧
      q2.pop = PopOutcome.item 10 q3 ∧ q3.deq = [20] ∧
      q3.push 30 = PushOutcome.done q4 ∧ q4.deq = [20, 30] ∧ q4.m_cap = 2 :=
  backpressure_capacity_two (Queue.new 2) 10 20 30 rfl rfl rfl

/-- C6. While the paused flag is set, `push` does not insert, whatever the
size.  The flag stays set through every sequence of steps without `resume()`
(among them `clear()`, `close()` and attempts of `pop`), so a `push` that was
waiting when `pause()` was called is still asleep after them; and a `push`
completes only in a state whose paused flag is clear. -/
theorem paused_push_stays_blocked {T : Type} (q : Queue T) (ops : List (Op T)) (ele : T)
    (hpause : q.is_pause = true) (hops : ∀ op ∈ ops, op.isResume = false) :
    q.push ele = PushOutcome.wait ∧ q.step (Op.push ele) = q ∧
      (q.run ops).is_pause = true ∧ (q.run ops).push ele = PushOutcome.wait ∧
      (∀ q0 : Queue T, (q0.pause.run ops).push ele = PushOutcome.wait) ∧
      (∀ q2 q3 : Queue T, q2.push ele = PushOutcome.done q3 → q2.is_pause = false) := by
  have h1 : q.push ele = PushOutcome.wait := (Queue.push_eq_wait_iff q ele).2 (Or.inr hpause)
  have h2 := Queue.run_is_pause q ops hops hpause
  refine ⟨h1, ?_, h2, (Queue.push_eq_wait_iff _ ele).2 (Or.inr h2), ?_, ?_⟩
  · simp only [Queue.step, h1]
  · intro q0
    exact (Queue.push_eq_wait_iff _ ele).2 (Or.inr (Queue.run_is_pause q0.pause ops hops rfl))
  · intro q2 q3 h
    exact ((Queue.push_eq_done_iff q2 q3 ele).1 h).2.1

/-- C6, on a full queue of capacity 1 that is paused, then cleared: the
`push` still sleeps although the queue is empty. -/
theorem paused_push_stays_blocked_witness :
    ((⟨[7], 1, false, true⟩ : Queue Nat).run [Op.pop, Op.clear]).deq = [] ∧
      ((⟨[7], 1, false, true⟩ : Queue Nat).run [Op.pop, Op.clear]).push 8 = PushOutcome.wait :=
  ⟨by decide,
    (paused_push_stays_blocked (⟨[7], 1, false, true⟩ : Queue Nat) [Op.pop, Op.clear] 8
      rfl (by decide)).2.2.2.1⟩

/-! ## The session claims -/

/-- C7, as stated, fails: on a newly constructed session, with a source that
opens, whose streams are an audio stream then a video stream, and for whose
video stream no decoder is found, `Player::open` returns `false` but has set
`videoStreamId` to 1 (it was 0) and `pFormatCtx` to the opened source (it was
`nullptr`). -/
theorem open_failure_writes_stream_id :
    ((Player.new : Player ℚ ℚ).openFile sampleSourceNoVideoDecoder).2 = false ∧
      (Player.new : Player ℚ ℚ).videoStreamId = 0 ∧
      ((Player.new : Player ℚ ℚ).openFile sampleSourceNoVideoDecoder).1.videoStreamId = 1 ∧
      (Player.new : Player ℚ ℚ).pFormatCtx = none ∧
      ((Player.new : Player ℚ ℚ).openFile sampleSourceNoVideoDecoder).1.pFormatCtx = some 1 := by
  refine ⟨?_, ?_, ?_, ?_, ?_⟩ <;> rfl

/-- C7, amended. If `Player::open` returns `false`, then the session was not
open before the call and is not open after it, and the initialised flag, the
shutdown flag, the clock (`startTime`, `startPosition`, `currPosition`), the
speed and the three queues are what they were before the call. -/
theorem open_failure_keeps_control_state {D F : Type} (p : Player D F) (e : OpenEnv)
    (hfail : (p.openFile e).2 = false) :
    p.isOpen = false ∧ (p.openFile e).1.isOpen = false ∧
      (p.openFile e).1.isInit = p.isInit ∧ (p.openFile e).1.closed = p.closed ∧
      (p.openFile e).1.startTime = p.startTime ∧
      (p.openFile e).1.startPosition = p.startPosition ∧
      (p.openFile e).1.currPosition = p.currPosition ∧
      (p.openFile e).1.m_speed = p.m_speed ∧
      (p.openFile e).1.videoPacketQ = p.videoPacketQ ∧
      (p.openFile e).1.audioPacketQ = p.audioPacketQ ∧
      (p.openFile e).1.videoFrameQ = p.videoFrameQ := by
  obtain ⟨⟨a1, a2, a3, a4, a5, a6, a7, a8, a9, a10⟩, hf⟩ :=
    Player.openFile_false_sameControl p e hfail
  exact ⟨hf, a2.trans hf, a1, a3, a4, a5, a6, a7, a8, a9, a10⟩

/-- C7, amended, at the source without a video decoder on a newly
constructed session. -/
theorem open_failure_keeps_control_state_witness :
    ((Player.new : Player ℚ ℚ).openFile sampleSourceNoVideoDecoder).2 = false ∧
      ((Player.new : Player ℚ ℚ).openFile sampleSourceNoVideoDecoder).1.isOpen = false ∧
      ((Player.new : Player ℚ ℚ).openFile sampleSourceNoVideoDecoder).1.m_speed = 1 :=
  ⟨rfl,
    (open_failure_keeps_control_state (Player.new : Player ℚ ℚ) sampleSourceNoVideoDecoder
      (by rfl)).2.1,
    (open_failure_keeps_control_state (Player.new : Player ℚ ℚ) sampleSourceNoVideoDecoder
      (by rfl)).2.2.2.2.2.2.2.1⟩

/-- C8, as stated, fails: on an open session whose source lasts 10 seconds
(`duration` = 10000000), a successful `seek(0.5)` is followed by a
`getPosition()` of 5, not of 0.5. -/
theorem seek_position_is_scaled :
    sampleSession.isOpen = true ∧
      (sampleSession.seek (1 / 2) 10000000 0 123).2 = 0 ∧
      (sampleSession.seek (1 / 2) 10000000 0 123).1.getPosition = 5 ∧
      (sampleSession.seek (1 / 2) 10000000 0 123).1.getPosition ≠ 1 / 2 := by
  have ho : sampleSession.isOpen = true := rfl
  refine ⟨ho, ?_, ?_, ?_⟩ <;>
    simp [Player.seek, Player.getPosition, ho, AV_TIME_BASE] <;> norm_num

/-- C8, amended. On an open session, when the source-level seek succeeds
(`av_seek_frame` returns a status that is not negative), `seek(p)` returns that
status and the next `getPosition()` returns `p * duration / AV_TIME_BASE`, the
argument scaled by the duration of the source in seconds; the anchor position
is the same value. -/
theorem seek_then_getPosition {D F : Type} [Mul D] [Div D] [IntCast D] (p : Player D F)
    (position : D) (duration seekRet now : Int)
    (hopen : p.isOpen = true) (hret : 0 ≤ seekRet) :
    (p.seek position duration seekRet now).2 = seekRet ∧
      (p.seek position duration seekRet now).1.getPosition =
        position * (duration : D) / (AV_TIME_BASE : D) ∧
      (p.seek position duration seekRet now).1.startPosition =
        position * (duration : D) / (AV_TIME_BASE : D) ∧
      (p.seek position duration seekRet now).1.startTime = toUInt64 now := by
  simp [Player.seek, Player.getPosition, hopen, hret]

/-- C8, amended, at the argument 0.5 on a source of 10 seconds. -/
theorem seek_then_getPosition_witness :
    (sampleSession.seek (1 / 2) 10000000 0 123).1.getPosition =
      (1 / 2 : ℚ) * ((10000000 : Int) : ℚ) / ((AV_TIME_BASE : Int) : ℚ) :=
  (seek_then_getPosition sampleSession (1 / 2) 10000000 0 123 rfl (by decide)).2.1

/-- C9. `Player::seek` on a session that is not open returns -1, a negative
status; and whenever `seek` returns a negative status, whatever the session and
whatever `av_seek_frame` returned, `startTime`, `startPosition`, `currPosition`
and the speed are what they were before the call. -/
theorem seek_failure_keeps_clock {D F : Type} [Mul D] [Div D] [IntCast D] (p : Player D F)
    (position : D) (duration seekRet now : Int) :
    (p.isOpen = false → (p.seek position duration seekRet now).2 = -1) ∧
      ((p.seek position duration seekRet now).2 < 0 →
        (p.seek position duration seekRet now).1.startTime = p.startTime ∧
        (p.seek position duration seekRet now).1.startPosition = p.startPosition ∧
        (p.seek position duration seekRet now).1.currPosition = p.currPosition ∧
        (p.seek position duration seekRet now).1.m_speed = p.m_speed) := by
  constructor
  · intro h
    simp [Player.seek, h]
  · intro h
    unfold Player.seek at h ⊢
    by_cases ho : p.isOpen = true
    · by_cases hr : seekRet ≥ 0
      · simp only [ho, Bool.not_true, Bool.false_eq_true, if_false, hr, if_true] at h
        omega
      · simp [ho, hr]
    · simp [ho]

/-- C9, on a newly constructed session (not open) and on an open one whose
source rejects the seek with status -22. -/
theorem seek_failure_keeps_clock_witness :
    ((Player.new : Player ℚ ℚ).seek (1 / 2) 10000000 0 123).2 = -1 ∧
      (sampleSession.seek (1 / 2) 10000000 (-22) 123).2 = -22 ∧
      (sampleSession.seek (1 / 2) 10000000 (-22) 123).1.currPosition =
        sampleSession.currPosition :=
  ⟨(seek_failure_keeps_clock (Player.new : Player ℚ ℚ) (1 / 2) 10000000 0 123).1 rfl,
    rfl,
    ((seek_failure_keeps_clock sampleSession (1 / 2) 10000000 (-22) 123).2
      (by decide)).2.2.1⟩

/-- C10, as stated, fails: on an open session whose speed was set to 2,
`resume()` leaves the speed at 2; it is not 1. -/
theorem resume_keeps_speed_two :
    (sampleSession.setSpeed 2).2 = 0 ∧
      ((sampleSession.setSpeed 2).1.resume 1000).m_speed = 2 ∧
      ((sampleSession.setSpeed 2).1.resume 1000).m_speed ≠ 1 := by
  have ho : sampleSession.isOpen = true := rfl
  refine ⟨?_, ?_, ?_⟩ <;> simp [Player.setSpeed, Player.resume, ho]

/-- C10, amended. After `resume()` the anchor wall time is the current time
(the reading `now` of the clock, a non-negative `int64_t`), the anchor position
is the position that was current at the call, which stays the current
position, and the speed is what it was before the call; `startPlay` also sets
the anchor wall time to the current time, but sets both positions to 0 and the
speed to 1. -/
theorem resume_reanchors_clock {D F : Type} [Zero D] [One F] (p : Player D F) (now : Int)
    (hnow : 0 ≤ now) (hint64 : now < 2 ^ 63) :
    ((p.resume now).startTime : Int) = now ∧
      (p.resume now).startPosition = p.currPosition ∧
      (p.resume now).currPosition = p.currPosition ∧
      (p.resume now).m_speed = p.m_speed ∧
      (p.startPlay now).startTime = (p.resume now).startTime ∧
      (p.startPlay now).startPosition = 0 ∧ (p.startPlay now).currPosition = 0 ∧
      (p.startPlay now).m_speed = 1 := by
  refine ⟨?_, rfl, rfl, rfl, rfl, rfl, rfl, rfl⟩
  simp only [Player.resume, toUInt64]
  omega

/-- C10, amended, on the session with speed 2, resumed at clock reading
1000. -/
theorem resume_reanchors_clock_witness :
    ((((sampleSession.setSpeed 2).1.resume 1000).startTime : Nat) : Int) = 1000 ∧
      ((sampleSession.setSpeed 2).1.resume 1000).startPosition =
        (sampleSession.setSpeed 2).1.currPosition ∧
      ((sampleSession.setSpeed 2).1.resume 1000).m_speed = (sampleSession.setSpeed 2).1.m_speed :=
  ⟨(resume_reanchors_clock (sampleSession.setSpeed 2).1 1000 (by decide) (by decide)).1,
    rfl, rfl⟩

/-! ## The worker claims -/

/-- C11. The demux iteration does not keep a failed read away from the
queues: on the open sample session, whose video stream has index 0 and whose
queues are empty, a read that fails and leaves the blank packet behind is
followed by a push of that packet into `videoPacketQ`, both at end of stream
(which also clears `isOpen`) and at a transient error (status -5). -/
theorem failed_read_pushes_blank_packet :
    sampleSession.videoStreamId = blankPacket.stream_index ∧
      sampleSession.videoPacketQ.deq = [] ∧
      sampleSession.addPacket AVERROR_EOF blankPacket =
        WorkerStep.next
          { sampleSession with
            isOpen := false
            videoPacketQ := { sampleSession.videoPacketQ with deq := [blankPacket] } } ∧
      sampleSession.addPacket (-5) blankPacket =
        WorkerStep.next
          { sampleSession with
            videoPacketQ := { sampleSession.videoPacketQ with deq := [blankPacket] } } := by
  refine ⟨?_, ?_, ?_, ?_⟩ <;> rfl

/-- C12. In a session whose shutdown flag `closed` is set, the next iteration
of the demux, video decode and video render workers leaves the loop, whatever
the FFmpeg calls would return; the next iteration of the audio decode worker
does not: `decodeAudioPacket` has no test of `closed`. -/
theorem shutdown_check_of_workers {D F : Type} [Mul D] [Div D] [IntCast D] (p : Player D F)
    (ret sendRet receiveRet inSampleRate num den : Int) (pkt : AVPacket) (frame : AVFrame)
    (hclosed : p.closed = true) :
    p.addPacket ret pkt = WorkerStep.leave ∧
      p.decodeVideoPacket sendRet receiveRet frame = WorkerStep.leave ∧
      p.renderVideo num den = WorkerStep.leave ∧
      (p.decodeAudioPacket sendRet receiveRet inSampleRate).1 ≠ WorkerStep.leave := by
  refine ⟨?_, ?_, ?_, ?_⟩
  · simp [Player.addPacket, hclosed]
  · simp [Player.decodeVideoPacket, hclosed]
  · simp [Player.renderVideo, hclosed]
  · unfold Player.decodeAudioPacket
    split_ifs <;> cases p.audioPacketQ.pop <;> simp

/-- C12, on a newly constructed session after the destructor set `closed`:
the audio decode worker sleeps in its control wait instead of leaving. -/
theorem shutdown_check_of_workers_witness :
    ((Player.new : Player ℚ ℚ).shutdown.addPacket 0 blankPacket = WorkerStep.leave ∧
      (Player.new : Player ℚ ℚ).shutdown.decodeVideoPacket 0 0 ⟨0, 0, 0, 0⟩ =
        WorkerStep.leave ∧
      (Player.new : Player ℚ ℚ).shutdown.renderVideo 1 25 = WorkerStep.leave ∧
      ((Player.new : Player ℚ ℚ).shutdown.decodeAudioPacket 0 0 44100).1 ≠ WorkerStep.leave) ∧
      ((Player.new : Player ℚ ℚ).shutdown.decodeAudioPacket 0 0 44100).1 = WorkerStep.waitOpen :=
  ⟨shutdown_check_of_workers (Player.new : Player ℚ ℚ).shutdown 0 0 0 44100 1 25 blankPacket
      ⟨0, 0, 0, 0⟩ rfl,
    rfl⟩

/-- C13. The audio decode iteration copies `2 * inSampleRate` bytes into the
scratch buffer of 88200 bytes, whatever the sample rate of the stream: at
48000 Hz it copies 96000 bytes, more than the buffer holds.  The copy fits
exactly when the sample rate is at most 44100. -/
theorem audio_copy_overruns_scratch_buffer :
    (sampleSessionWithAudio.decodeAudioPacket 0 0 48000).2 = some 96000 ∧
      audioUserDataSize < 96000 ∧
      (∀ r : Int, pcmBufSize r ≤ audioUserDataSize ↔ r ≤ 44100) := by
  refine ⟨rfl, by decide, ?_⟩
  intro r
  unfold pcmBufSize nbChannelsStereo audioUserDataSize
  omega

end TinyPlayer
